import Mathlib

/-!
Verification of the worktree-provisioning service (server package).

The definitions below are a shallow embedding of the TypeScript source:
`src/packages/server/src/services/terminal.ts` (command template expansion
and tokenization), the git service in the same file (worktree/branch
inspection and creation), `src/packages/server/src/lib/errors.ts`
(error-to-HTTP mapping), and the route handlers of
`src/packages/server/src/routes/worktree.ts` (bundled in the sources).

Strings are modelled as Lean `String` / `List Char`; the filesystem and
the external git tool are modelled as explicit state (`FS`, `GitState`).
-/

deriving instance DecidableEq for Except

/-- The single-quote character, `'` (code point 39). -/
def squote : Char := Char.ofNat 39

/-- The double-quote character, `"` (code point 34). -/
def dquote : Char := Char.ofNat 34

/-- The backquote character (code point 96), used by JavaScript
`String.replace` replacement patterns. -/
def bquote : Char := Char.ofNat 96

/-- Expansion of JavaScript `String.replace` replacement patterns in the
replacement string: `$$` inserts a dollar sign, `$&` the matched text,
a dollar followed by a backquote the portion before the match, and
a dollar followed by a single quote the portion after the match.  The
regular expressions built by `replaceTokens` contain no capture groups,
so `$1`, `$<name>` and every other `$`-sequence stay literal, exactly as
in JavaScript. -/
def expandDollar : List Char → List Char → List Char → List Char → List Char
  | [], _, _, _ => []
  | [c], _, _, _ => [c]
  | c :: d :: rest2, matched, before, after =>
    if c = '$' then
      if d = '$' then '$' :: expandDollar rest2 matched before after
      else if d = '&' then matched ++ expandDollar rest2 matched before after
      else if d = bquote then before ++ expandDollar rest2 matched before after
      else if d = squote then after ++ expandDollar rest2 matched before after
      else c :: expandDollar (d :: rest2) matched before after
    else c :: expandDollar (d :: rest2) matched before after

/-- Worker for `replaceGlobal`: scans the subject left to right; at each
position where the (nonempty) pattern matches, emits the processed
replacement and resumes after the match, never rescanning the inserted
replacement.  `before` accumulates the already-consumed original text
(needed by the dollar-backquote pattern).  The fuel argument is an upper
bound on the number of remaining characters, so the `0` case with a
nonempty subject is never reached when started with enough fuel; it is
present only to make the recursion structural. -/
def replaceGlobalGo (pat rep : List Char) : Nat → List Char → List Char → List Char
  | _, _, [] => []
  | 0, _, s => s
  | Nat.succ fuel, before, c :: rest =>
    if pat ≠ [] ∧ pat.isPrefixOf (c :: rest) then
      expandDollar rep pat before ((c :: rest).drop pat.length) ++
        replaceGlobalGo pat rep fuel (before ++ pat) ((c :: rest).drop pat.length)
    else
      c :: replaceGlobalGo pat rep fuel (before ++ [c]) rest

/-- JavaScript `subject.replace(new RegExp(<literal pat>, "g"), rep)` for a
pattern with no regex metacharacters (the patterns used by `replaceTokens`
are `\{key\}` with alphanumeric keys): every non-overlapping occurrence of
`pat` in `s`, found left to right, is replaced by `rep` (with `$`-pattern
processing), and replacements are not rescanned. -/
def replaceGlobal (pat rep s : List Char) : List Char :=
  replaceGlobalGo pat rep s.length [] s

/-- Token values that can be replaced in terminal command templates
(interface `TerminalTokens`). -/
structure TerminalTokens where
  directory : String
  issueId : String
  branchName : String
deriving DecidableEq, Repr

/-- `replaceTokens` from `terminal.ts`: iterates over `Object.entries` of
the token object — at every call site the object literal is written in the
order `directory`, `issueId`, `branchName`, so the three global replaces
run in that order, each over the result of the previous one. -/
def replaceTokens (command : String) (tokens : TerminalTokens) : String :=
  let r1 := String.mk (replaceGlobal "\x7bdirectory\x7d".data tokens.directory.data command.data)
  let r2 := String.mk (replaceGlobal "\x7bissueId\x7d".data tokens.issueId.data r1.data)
  String.mk (replaceGlobal "\x7bbranchName\x7d".data tokens.branchName.data r2.data)

/-- Worker for `parseCommand`: the while-loop of the source, with the
loop variables `current`, `inSingleQuote`, `inDoubleQuote` and the
accumulated `parts` made explicit.  The branch structure mirrors the
source's if/else chain character by character. -/
def parseCommandAux : List Char → List Char → Bool → Bool → List String → List String
  | [], current, _, _, parts =>
    if current.length > 0 then parts ++ [String.mk current] else parts
  | c :: rest, current, inSingleQuote, inDoubleQuote, parts =>
    if c = squote ∧ ¬ inDoubleQuote = true then
      parseCommandAux rest current (! inSingleQuote) inDoubleQuote parts
    else if c = dquote ∧ ¬ inSingleQuote = true then
      parseCommandAux rest current inSingleQuote (! inDoubleQuote) parts
    else if c = ' ' ∧ ¬ inSingleQuote = true ∧ ¬ inDoubleQuote = true then
      if current.length > 0 then
        parseCommandAux rest [] inSingleQuote inDoubleQuote (parts ++ [String.mk current])
      else
        parseCommandAux rest current inSingleQuote inDoubleQuote parts
    else
      parseCommandAux rest (current ++ [c]) inSingleQuote inDoubleQuote parts

/-- `parseCommand` from `terminal.ts`: splits a command string into
argv-style tokens on unquoted spaces; single and double quotes toggle
quoting modes and are themselves dropped. -/
def parseCommand (command : String) : List String :=
  parseCommandAux command.data [] false false []

/-- `executeTerminalCommand` from `terminal.ts`, modelled up to the spawn
point: substitutes tokens, tokenizes, and throws
`Empty command after parsing` when no token remains; on success the spawn
is invoked with the returned argv (`[executable, ...args]`). -/
def executeTerminalCommand (command : String) (tokens : TerminalTokens) :
    Except String (List String) :=
  let finalCommand := replaceTokens command tokens
  let parts := parseCommand finalCommand
  if parts = [] then Except.error "Empty command after parsing"
  else Except.ok parts

/-- `executeTerminalCommandWithCapture` from `terminal.ts`, modelled up to
the spawn point: the expansion pipeline and the empty-command check are
identical to the fire-and-forget path. -/
def executeTerminalCommandWithCapture (command : String) (tokens : TerminalTokens) :
    Except String (List String) :=
  let finalCommand := replaceTokens command tokens
  let parts := parseCommand finalCommand
  if parts = [] then Except.error "Empty command after parsing"
  else Except.ok parts

/-- Kind of a filesystem entry: regular file or directory. -/
inductive EntryKind where
  | file : EntryKind
  | dir : EntryKind
deriving DecidableEq, Repr

/-- The filesystem, modelled as a finite association of absolute paths to
entry kinds.  `fs/promises.exists` is path lookup regardless of kind. -/
abbrev FS : Type := List (String × EntryKind)

/-- `exists` from `fs/promises`: true iff the path names any entry,
file or directory. -/
def existsPath (fs : FS) (p : String) : Bool :=
  (List.lookup p fs).isSome

/-- Kind of the entry at a path, if any (used to state what the real
filesystem holds at a counterexample input). -/
def kindAt (fs : FS) (p : String) : Option EntryKind :=
  List.lookup p fs

/-- Result type of the worktree-existence check (`WorktreeCheckResult`). -/
structure WorktreeCheckResult where
  «exists» : Bool
  directory : Option String := none
deriving DecidableEq, Repr

/-- Result type of the branch-existence check (`BranchCheckResult`). -/
structure BranchCheckResult where
  «exists» : Bool
deriving DecidableEq, Repr

/-- Result type of worktree creation (`WorktreeCreateResult`). -/
structure WorktreeCreateResult where
  directory : String
  branchCreated : Bool
deriving DecidableEq, Repr

/-- State visible to the git service: the filesystem, the set of paths
recognized as git repositories (`git rev-parse --git-dir` succeeding), the
local branches of each repository as (repoPath, branchName) pairs
(`git show-ref --verify --quiet refs/heads/<name>` succeeding), and
whether the next mutating `git worktree add` invocation fails in the
environment (disk or permission failure), carrying its stderr text. -/
structure GitState where
  fs : FS
  repos : List String
  branches : List (String × String)
  addFailure : Option String := none

/-- The error taxonomy of `lib/errors.ts`: `ValidationError`, `GitError`
(with captured stderr), `WorktreeExistsError` (carrying the conflicting
directory), `BranchExistsError`, and any other thrown `Error` with its
message. -/
inductive AppError where
  | validation (message : String)
  | gitError (message : String) (stderr : Option String)
  | worktreeExists (directory : String)
  | branchExists (branchName : String)
  | other (message : String)
deriving DecidableEq, Repr

/-- The `message` property of the thrown error object, as set by each
error class constructor in `lib/errors.ts`. -/
def AppError.message : AppError → String
  | .validation m => m
  | .gitError m _ => m
  | .worktreeExists d => "Worktree already exists at " ++ d
  | .branchExists b => "Branch " ++ b ++ " already exists"
  | .other m => m

/-- An HTTP response body as built by the handlers: a JSON object with
optional `success`, `error`, `message` and `directory` members. -/
structure ResBody where
  success : Option Bool := none
  error : Option String := none
  message : Option String := none
  directory : Option String := none
deriving DecidableEq, Repr

/-- `errorToResponse` from `lib/errors.ts`: maps an error to an HTTP
status code and response body, falling through to a 500 `internal`
response with a fixed generic message for unclassified errors. -/
def errorToResponse (e : AppError) : Nat × ResBody :=
  match e with
  | .validation _ =>
    (400, { error := some "validation", message := some e.message })
  | .worktreeExists d =>
    (409, { error := some "exists", directory := some d, message := some e.message })
  | .branchExists _ =>
    (409, { error := some "branch_exists", message := some e.message })
  | .gitError _ _ =>
    (500, { error := some "git_error", message := some e.message })
  | .other _ =>
    (500, { error := some "internal", message := some "An unexpected error occurred" })

/-- `checkBranchExists` from the git service: probes
`git show-ref --verify --quiet refs/heads/<branchName>` in the repository
at `repoPath`; a non-zero exit is "does not exist". -/
def checkBranchExists (st : GitState) (repoPath branchName : String) : BranchCheckResult :=
  { «exists» := decide ((repoPath, branchName) ∈ st.branches) }

/-- `validateBaseBranch` from the git service: throws a `ValidationError`
naming the base branch when it does not exist. -/
def validateBaseBranch (st : GitState) (repoPath baseBranch : String) : Except AppError Unit :=
  if (checkBranchExists st repoPath baseBranch).«exists» then Except.ok ()
  else Except.error (AppError.validation ("Base branch does not exist: " ++ baseBranch))

/-- `checkWorktreeExists` from the git service: reports `exists := true`
iff the directory exists and `<directory>/.git` exists — the `exists`
probe is kind-insensitive, so a `.git` entry of either kind satisfies it
(the source comment intends a `.git` file only). -/
def checkWorktreeExists (fs : FS) (directory : String) : WorktreeCheckResult :=
  if ¬ existsPath fs directory then { «exists» := false }
  else
    let gitExists := existsPath fs (directory ++ "/.git")
    { «exists» := gitExists, directory := if gitExists then some directory else none }

/-- `validateRepoPath` from the git service: the path must exist and be
recognized by `git rev-parse --git-dir`. -/
def validateRepoPath (st : GitState) (repoPath : String) : Except AppError Unit :=
  if ¬ existsPath st.fs repoPath then
    Except.error (AppError.validation ("Repository path does not exist: " ++ repoPath))
  else if ¬ repoPath ∈ st.repos then
    Except.error (AppError.validation ("Not a git repository: " ++ repoPath))
  else Except.ok ()

/-- Node `path.basename` on the characters of a path: trailing slashes
are dropped, then the segment after the last remaining slash is returned
(the whole string when it has no slash; a path of only slashes yields
a single slash). -/
def basenameChars (cs : List Char) : List Char :=
  let trimmed := (cs.reverse.dropWhile (· = '/')).reverse
  if trimmed = [] then
    if cs = [] then [] else ['/']
  else
    (trimmed.reverse.takeWhile (· ≠ '/')).reverse

/-- `getRepoName` from the git service: `basename(repoPath)`. -/
def getRepoName (repoPath : String) : String :=
  String.mk (basenameChars repoPath.data)

/-- `buildWorktreePath` from the git service: pure concatenation
`worktreeRoot/repoName/branchName`. -/
def buildWorktreePath (worktreeRoot repoPath branchName : String) : String :=
  worktreeRoot ++ "/" ++ getRepoName repoPath ++ "/" ++ branchName

/-- The effect of a successful `git worktree add -b <branch> <dir> <base>`
on the modelled state: the external tool creates the worktree directory
with its `.git` link file and registers the new branch. -/
def applyWorktreeAdd (st : GitState) (repoPath branchName worktreeDirectory : String) : GitState :=
  { st with
    fs := st.fs ++ [(worktreeDirectory, EntryKind.dir),
                    (worktreeDirectory ++ "/.git", EntryKind.file)],
    branches := st.branches ++ [(repoPath, branchName)] }

/-- The `GitError` message `execGit` raises when
`git worktree add -b <branch> <dir> <base>` exits non-zero. -/
def worktreeAddFailMessage (branchName worktreeDirectory baseBranch : String) : String :=
  "Git command failed: git worktree add -b " ++ branchName ++ " " ++
    worktreeDirectory ++ " " ++ baseBranch

/-- `createWorktree` from the git service, as a state transformer:
checks the target directory, then the new branch, then the base branch,
and only then issues the single mutating `git worktree add` call; every
failure leaves the state untouched and returns the thrown error. -/
def createWorktree (st : GitState) (repoPath branchName baseBranch worktreeDirectory : String) :
    Except AppError WorktreeCreateResult × GitState :=
  if (checkWorktreeExists st.fs worktreeDirectory).«exists» then
    (Except.error (AppError.worktreeExists worktreeDirectory), st)
  else if (checkBranchExists st repoPath branchName).«exists» then
    (Except.error (AppError.branchExists branchName), st)
  else if ¬ (checkBranchExists st repoPath baseBranch).«exists» then
    (Except.error (AppError.validation ("Base branch does not exist: " ++ baseBranch)), st)
  else
    match st.addFailure with
    | some stderr =>
      (Except.error (AppError.gitError
        (worktreeAddFailMessage branchName worktreeDirectory baseBranch) (some stderr)), st)
    | none =>
      (Except.ok { directory := worktreeDirectory, branchCreated := true },
       applyWorktreeAdd st repoPath branchName worktreeDirectory)

/-- A JSON request body member for the worktree routes: `none` models an
absent or non-string member, `some s` a string member. -/
abbrev BodyField : Type := Option String

/-- The body of a POST `/worktree/create` request as far as the handler
inspects it. -/
structure CreateBody where
  issueId : BodyField
  repoPath : BodyField
  branchName : BodyField
  baseBranch : BodyField
  worktreeRoot : BodyField
  terminalCommand : BodyField
deriving DecidableEq, Repr

/-- The validated create request (`CreateWorktreeRequest`). -/
structure CreateData where
  issueId : String
  repoPath : String
  branchName : String
  baseBranch : String
  worktreeRoot : String
  terminalCommand : String
deriving DecidableEq, Repr

/-- The body of a POST `/worktree/open` request as far as the handler
inspects it. -/
structure OpenBody where
  directory : BodyField
  terminalCommand : BodyField
  issueId : BodyField
  branchName : BodyField
deriving DecidableEq, Repr

/-- The validated open request (`OpenWorktreeRequest`). -/
structure OpenData where
  directory : String
  terminalCommand : String
  issueId : String
  branchName : String
deriving DecidableEq, Repr

/-- One step of the required-fields loop: a field passes when it is a
string and not empty, otherwise a `ValidationError` naming the field is
thrown. -/
def reqField (name : String) (v : BodyField) : Except AppError String :=
  match v with
  | some s =>
    if s = "" then Except.error (AppError.validation ("Missing required field: " ++ name))
    else Except.ok s
  | none => Except.error (AppError.validation ("Missing required field: " ++ name))

/-- `validateCreateRequest` from the worktree routes: checks the six
required fields in source order and fails on the first missing one. -/
def validateCreateRequest (b : CreateBody) : Except AppError CreateData := do
  let issueId ← reqField "issueId" b.issueId
  let repoPath ← reqField "repoPath" b.repoPath
  let branchName ← reqField "branchName" b.branchName
  let baseBranch ← reqField "baseBranch" b.baseBranch
  let worktreeRoot ← reqField "worktreeRoot" b.worktreeRoot
  let terminalCommand ← reqField "terminalCommand" b.terminalCommand
  Except.ok ⟨issueId, repoPath, branchName, baseBranch, worktreeRoot, terminalCommand⟩

/-- `validateOpenRequest` from the worktree routes: checks the four
required fields in source order and fails on the first missing one. -/
def validateOpenRequest (b : OpenBody) : Except AppError OpenData := do
  let directory ← reqField "directory" b.directory
  let terminalCommand ← reqField "terminalCommand" b.terminalCommand
  let issueId ← reqField "issueId" b.issueId
  let branchName ← reqField "branchName" b.branchName
  Except.ok ⟨directory, terminalCommand, issueId, branchName⟩

/-- The POST `/worktree/create` handler: validates the body, validates the
repository, builds the worktree path, provisions, launches the terminal
command, and maps any thrown error once through `errorToResponse`.  The
returned state is the filesystem/git state after the request. -/
def createWorktreeCreateHandler (st : GitState) (b : CreateBody) :
    (Nat × ResBody) × GitState :=
  match validateCreateRequest b with
  | .error e => (errorToResponse e, st)
  | .ok data =>
    match validateRepoPath st data.repoPath with
    | .error e => (errorToResponse e, st)
    | .ok _ =>
      let worktreeDirectory :=
        buildWorktreePath data.worktreeRoot data.repoPath data.branchName
      match createWorktree st data.repoPath data.branchName data.baseBranch worktreeDirectory with
      | (.error e, st2) => (errorToResponse e, st2)
      | (.ok result, st2) =>
        match executeTerminalCommand data.terminalCommand
            ⟨result.directory, data.issueId, data.branchName⟩ with
        | .error m => (errorToResponse (AppError.other m), st2)
        | .ok _ => ((200, { success := some true, directory := some result.directory }), st2)

/-- The POST `/worktree/open` handler: validates the body, requires the
directory to exist and to pass `checkWorktreeExists`, then launches the
terminal command.  The boolean records whether `executeTerminalCommand`
was invoked at all (i.e. whether a terminal launch was attempted). -/
def createWorktreeOpenHandler (st : GitState) (b : OpenBody) :
    (Nat × ResBody) × Bool :=
  match validateOpenRequest b with
  | .error e => (errorToResponse e, false)
  | .ok data =>
    if ¬ existsPath st.fs data.directory then
      (errorToResponse (AppError.validation "Directory does not exist"), false)
    else if ¬ (checkWorktreeExists st.fs data.directory).«exists» then
      (errorToResponse (AppError.validation "Directory is not a valid git worktree"), false)
    else
      match executeTerminalCommand data.terminalCommand
          ⟨data.directory, data.issueId, data.branchName⟩ with
      | .error m => (errorToResponse (AppError.other m), true)
      | .ok _ => ((200, { success := some true }), true)

/-- A parsed worktree record (`WorktreeInfo` built up as
`Partial<WorktreeInfo>` by the parser, so every field is optional until
set; the source casts the accumulated object on push). -/
structure WorktreeInfo where
  path : Option String := none
  head : Option String := none
  branch : Option String := none
deriving DecidableEq, Repr

/-- JavaScript truthiness of `current.path`: present and nonempty. -/
def pathTruthy (w : WorktreeInfo) : Bool :=
  match w.path with
  | none => false
  | some s => s ≠ ""

/-- Worker for `replaceFirst` with a nonempty pattern: replaces the
leftmost occurrence, leaving the string unchanged when the pattern never
occurs. -/
def replaceFirstGo (pat rep : List Char) : List Char → List Char
  | [] => []
  | c :: rest =>
    if pat.isPrefixOf (c :: rest) then rep ++ (c :: rest).drop pat.length
    else c :: replaceFirstGo pat rep rest

/-- JavaScript `s.replace(pat, rep)` with a string pattern: only the first
occurrence is replaced (an empty pattern matches at the start, prepending
the replacement). -/
def replaceFirst (pat rep s : List Char) : List Char :=
  if pat = [] then rep ++ s else replaceFirstGo pat rep s

/-- JavaScript `output.split("\n")` on the character list: the segments
between newline characters, in order, including empty segments
(`""` splits to `[""]`). -/
def splitNl : List Char → List (List Char)
  | [] => [[]]
  | c :: rest =>
    let r := splitNl rest
    if c = '\n' then [] :: r
    else
      match r with
      | [] => [[c]]
      | t :: ts => (c :: t) :: ts

/-- Worker for `parseWorktreeListOutput`: the for-loop of the source over
the split lines, with the accumulator `worktrees` and the current record
explicit; after the loop the current record is pushed if it has a path. -/
def parseWorktreeGo : List (List Char) → WorktreeInfo → List WorktreeInfo → List WorktreeInfo
  | [], current, worktrees =>
    if pathTruthy current then worktrees ++ [current] else worktrees
  | line :: rest, current, worktrees =>
    if List.isPrefixOf "worktree ".data line then
      let ws := if pathTruthy current then worktrees ++ [current] else worktrees
      parseWorktreeGo rest { path := some (String.mk (line.drop 9)) } ws
    else if List.isPrefixOf "HEAD ".data line then
      parseWorktreeGo rest { current with head := some (String.mk (line.drop 5)) } worktrees
    else if List.isPrefixOf "branch ".data line then
      parseWorktreeGo rest
        { current with branch := some (String.mk (replaceFirst "refs/heads/".data [] (line.drop 7))) }
        worktrees
    else if line = [] then
      if pathTruthy current then parseWorktreeGo rest {} (worktrees ++ [current])
      else parseWorktreeGo rest current worktrees
    else
      parseWorktreeGo rest current worktrees

/-- `parseWorktreeListOutput` from the git service: splits the porcelain
output on newlines and folds the lines into records. -/
def parseWorktreeListOutput (output : String) : List WorktreeInfo :=
  parseWorktreeGo (splitNl output.data) {} []

/-- `listWorktrees` from the git service: `execGit` returns the tool's
stdout trimmed of surrounding whitespace (so the final record reaches the
parser without a trailing blank-line separator), and the result is parsed.
The porcelain output is passed in explicitly, standing for the stdout of
`git worktree list --porcelain`. -/
def listWorktrees (rawPorcelainOutput : String) : List WorktreeInfo :=
  parseWorktreeListOutput rawPorcelainOutput.trim


/-- A record of the porcelain listing format emitted by
`git worktree list --porcelain`, as the round-trip claim describes the
parser's input: a `worktree ` line, optionally followed by a `HEAD ` line
and a `branch ` line whose ref is in fully-qualified `refs/heads/` form. -/
structure PorcelainRecord where
  path : String
  headId : Option String := none
  branchName : Option String := none
deriving DecidableEq, Repr

/-- True when the string contains no newline character (a line of the
porcelain output cannot contain the line separator). -/
def noNl (s : String) : Bool :=
  s.data.all (· ≠ '\n')

/-- Well-formedness of a porcelain record: the worktree path is nonempty
(git prints an absolute path) and no field contains a newline. -/
def wfRecord (r : PorcelainRecord) : Bool :=
  decide (r.path ≠ "") && noNl r.path && r.headId.all noNl && r.branchName.all noNl

/-- The optional line `pre ++ v` contributed by an optional field. -/
def optLine (pre : List Char) (v : Option String) : List (List Char) :=
  match v with
  | none => []
  | some s => [pre ++ s.data]

/-- The lines of one porcelain record. -/
def recordLines (r : PorcelainRecord) : List (List Char) :=
  ("worktree ".data ++ r.path.data) ::
    (optLine "HEAD ".data r.headId ++ optLine "branch refs/heads/".data r.branchName)

/-- The lines of a multi-record porcelain listing: records separated by a
single blank line, the trailing record without a final blank-line
separator. -/
def porcelainLines : List PorcelainRecord → List (List Char)
  | [] => []
  | [r] => recordLines r
  | r :: rs => recordLines r ++ [[]] ++ porcelainLines rs

/-- Joins lines with the newline separator (inverse of `splitNl`). -/
def joinNl : List (List Char) → List Char
  | [] => []
  | [l] => l
  | l :: ls => l ++ '\n' :: joinNl ls

/-- The porcelain listing output text for a list of records. -/
def porcelainOutput (rs : List PorcelainRecord) : String :=
  String.mk (joinNl (porcelainLines rs))

/-- The parsed form the round-trip claim expects for one record: the path
from the `worktree ` line, the head id from the `HEAD ` line, the branch
from the `branch ` line with the `refs/heads/` prefix stripped. -/
def toWorktreeInfo (r : PorcelainRecord) : WorktreeInfo :=
  { path := some r.path, head := r.headId, branch := r.branchName }

/-- Number of `worktree ` lines in a porcelain listing. -/
def countWorktreeLines (lines : List (List Char)) : Nat :=
  lines.countP (fun l => List.isPrefixOf "worktree ".data l)

/-- A nonempty character list always makes a nonempty string. -/
lemma stringMk_ne_empty (l : List Char) (h : l ≠ []) : String.mk l ≠ "" := by
  intro e
  exact h (by simpa using congrArg String.data e)

/-- On a run of space characters outside quotes with an empty current
token, the tokenizer loop emits nothing. -/
lemma parseCommandAux_all_space (cs : List Char) (h : ∀ c ∈ cs, c = ' ')
    (parts : List String) : parseCommandAux cs [] false false parts = parts := by
  induction cs with
  | nil => simp [parseCommandAux]
  | cons c rest ih =>
    have hc : c = ' ' := h c (List.mem_cons_self _ _)
    subst hc
    have hrest : ∀ x ∈ rest, x = ' ' := fun x hx => h x (List.mem_cons_of_mem _ hx)
    rw [parseCommandAux, if_neg (by decide), if_neg (by decide), if_pos (by decide),
      if_neg (by decide)]
    exact ih hrest

/-- Inside an unterminated single-quoted span, every remaining character
(including double quotes and spaces) is appended to the current token,
which is emitted at end of input. -/
lemma parseCommandAux_in_single (s : List Char) (h : squote ∉ s) :
    ∀ (cur : List Char) (parts : List String),
      parseCommandAux s cur true false parts =
        if cur ++ s = [] then parts else parts ++ [String.mk (cur ++ s)] := by
  induction s with
  | nil =>
    intro cur parts
    cases cur <;> simp [parseCommandAux]
  | cons c rest ih =>
    intro cur parts
    have hc : ¬ c = squote := fun e => h (e ▸ List.mem_cons_self c rest)
    have hrest : squote ∉ rest := fun hx => h (List.mem_cons_of_mem _ hx)
    rw [parseCommandAux, if_neg (by simp [hc]), if_neg (by simp), if_neg (by simp)]
    rw [ih hrest (cur ++ [c]) parts]
    simp

/-- Every token the tokenizer loop ever emits is nonempty: tokens are
pushed only under a positive length guard. -/
lemma parseCommandAux_mem_ne_empty (cs : List Char) :
    ∀ (cur : List Char) (inS inD : Bool) (parts : List String),
      (∀ t ∈ parts, t ≠ "") →
      ∀ t ∈ parseCommandAux cs cur inS inD parts, t ≠ "" := by
  induction cs with
  | nil =>
    intro cur inS inD parts hp t ht
    rw [parseCommandAux] at ht
    split at ht
    · rcases List.mem_append.mp ht with h1 | h1
      · exact hp t h1
      · rcases List.mem_singleton.mp h1 with rfl
        exact stringMk_ne_empty cur (by rintro rfl; simp at *)
    · exact hp t ht
  | cons c rest ih =>
    intro cur inS inD parts hp t ht
    rw [parseCommandAux] at ht
    split at ht
    · exact ih _ _ _ _ hp t ht
    · split at ht
      · exact ih _ _ _ _ hp t ht
      · split at ht
        · split at ht
          · refine ih _ _ _ _ ?_ t ht
            intro x hx
            rcases List.mem_append.mp hx with h1 | h1
            · exact hp x h1
            · rcases List.mem_singleton.mp h1 with rfl
              exact stringMk_ne_empty cur (by rintro rfl; simp at *)
          · exact ih _ _ _ _ hp t ht
        · exact ih _ _ _ _ hp t ht

/-- C1 counterexample: expanding the template `{directory}` with
directory = `{issueId}`, issueId = `X`, branchName = `b` yields `X`, not
the literal `{issueId}` the claim requires — the later issueId pass
re-substitutes the value inserted by the directory pass. -/
theorem c1_counterexample :
    replaceTokens "\x7bdirectory\x7d" ⟨"\x7bissueId\x7d", "X", "b"⟩ = "X" ∧
    ¬ replaceTokens "\x7bdirectory\x7d" ⟨"\x7bissueId\x7d", "X", "b"⟩ = "\x7bissueId\x7d" := by
  decide

/-- C1 (amended): substitution is sequential per token, in the order
directory, issueId, branchName, each pass single-pass over its own input:
a substituted value containing the placeholder of a later-processed token
is substituted again by that later pass, while a value containing its own
placeholder or that of an earlier-processed token is left literal. -/
theorem c1_sequential_substitution :
    replaceTokens "\x7bdirectory\x7d" ⟨"\x7bissueId\x7d", "X", "b"⟩ = "X" ∧
    replaceTokens "\x7bissueId\x7d" ⟨"D", "\x7bdirectory\x7d", "b"⟩ = "\x7bdirectory\x7d" ∧
    replaceTokens "\x7bdirectory\x7d" ⟨"\x7bdirectory\x7d", "X", "b"⟩ = "\x7bdirectory\x7d" ∧
    replaceTokens "\x7bbranchName\x7d" ⟨"D", "X", "\x7bissueId\x7d\x7bdirectory\x7d"⟩ =
      "\x7bissueId\x7d\x7bdirectory\x7d" := by
  decide

/-- C2: on a directory whose `.git` entry is a directory (a standalone
clone), `checkWorktreeExists` reports `exists := true`, because the
`fs.exists` probe it uses is kind-insensitive — contradicting the
spec and the source's own comment, which require a `.git` regular file. -/
theorem c2_git_directory_reported_as_worktree :
    (checkWorktreeExists [("/repo", EntryKind.dir), ("/repo/.git", EntryKind.dir)]
      "/repo").«exists» = true ∧
    kindAt [("/repo", EntryKind.dir), ("/repo/.git", EntryKind.dir)] "/repo/.git" =
      some EntryKind.dir := by
  decide

/-- C4 counterexample: a template consisting of a single tab character
expands to a whitespace-only command, yet the tokenizer (which splits
only on the space character) produces the one-element argv `["\t"]` and
both execution paths proceed to spawn instead of failing. -/
theorem c4_counterexample :
    ((replaceTokens "\t" ⟨"x", "y", "z"⟩).data.all Char.isWhitespace) = true ∧
    executeTerminalCommand "\t" ⟨"x", "y", "z"⟩ = Except.ok ["\t"] ∧
    executeTerminalCommandWithCapture "\t" ⟨"x", "y", "z"⟩ = Except.ok ["\t"] := by
  decide

/-- C4 (amended): for every template and token values whose substituted
result consists only of space characters (in particular, the empty
result), expansion yields zero tokens and both execution paths fail with
the empty-command error before any spawn is attempted. -/
theorem c4_space_only_command_rejected :
    ∀ (command : String) (tokens : TerminalTokens),
      (∀ c ∈ (replaceTokens command tokens).data, c = ' ') →
      executeTerminalCommand command tokens = Except.error "Empty command after parsing" ∧
      executeTerminalCommandWithCapture command tokens =
        Except.error "Empty command after parsing" := by
  intro command tokens h
  have hp : parseCommand (replaceTokens command tokens) = [] :=
    parseCommandAux_all_space _ h []
  exact ⟨by simp [executeTerminalCommand, hp], by simp [executeTerminalCommandWithCapture, hp]⟩

/-- C4 witness: the template `{directory} {issueId}` with both values
empty expands to a single space and is rejected by both paths. -/
theorem c4_witness :
    executeTerminalCommand "\x7bdirectory\x7d \x7bissueId\x7d" ⟨"", "", "b"⟩ =
        Except.error "Empty command after parsing" ∧
    executeTerminalCommandWithCapture "\x7bdirectory\x7d \x7bissueId\x7d" ⟨"", "", "b"⟩ =
        Except.error "Empty command after parsing" :=
  c4_space_only_command_rejected "\x7bdirectory\x7d \x7bissueId\x7d" ⟨"", "", "b"⟩ (by decide)

/-- C5: the ghostty example expands to exactly the five expected tokens,
with the single-quoted span one token, internal spaces preserved and the
quotes stripped; a double quote inside a single-quoted span stays
literal; and an unterminated single quote is tolerated, the whole
remainder (spaces and double quotes included) becoming the final token. -/
theorem c5_quote_aware_tokenization :
    parseCommand (replaceTokens "ghostty -e bash -c \x27cd \x7bdirectory\x7d && opencode\x27"
        ⟨"/home/u/w", "Q-3", "q-3-b"⟩) =
      ["ghostty", "-e", "bash", "-c", "cd /home/u/w && opencode"] ∧
    parseCommand "a\x27b\x22 c\x27d" = ["ab\x22 cd"] ∧
    (∀ s : List Char, squote ∉ s → s ≠ [] →
      parseCommand (String.mk (squote :: s)) = [String.mk s]) := by
  refine ⟨by decide, by decide, ?_⟩
  intro s hs hne
  show parseCommandAux (squote :: s) [] false false [] = [String.mk s]
  rw [parseCommandAux, if_pos (by simp)]
  simp only [Bool.not_false]
  rw [parseCommandAux_in_single s hs [] []]
  simp [hne]

/-- C5 witness: an unterminated quote before `b "c d` keeps the rest of
the string as one token. -/
theorem c5_witness :
    parseCommand (String.mk (squote :: ('b' :: ' ' :: dquote :: 'c' :: ' ' :: 'd' :: []))) =
      [String.mk ('b' :: ' ' :: dquote :: 'c' :: ' ' :: 'd' :: [])] :=
  c5_quote_aware_tokenization.2.2 _ (by decide) (by decide)

/-- C10: every token the tokenizer returns is nonempty — in particular an
explicitly quoted empty argument (`''` or `""`) is dropped rather than
passed through as an empty argv entry. -/
theorem c10_no_empty_tokens :
    (∀ (s : String), ∀ t ∈ parseCommand s, t ≠ "") ∧
    parseCommand "a \x27\x27 b" = ["a", "b"] ∧
    parseCommand "\x22\x22" = [] := by
  refine ⟨?_, by decide, by decide⟩
  intro s t ht
  exact parseCommandAux_mem_ne_empty s.data [] false false [] (by simp) t ht

/-- C10 witness: the token `x` returned for the command `x` is nonempty. -/
theorem c10_witness : ("x" : String) ≠ "" :=
  c10_no_empty_tokens.1 "x" "x" (by decide)

/-- C3: when the target directory is already a worktree AND the target
branch already exists, `createWorktree` fails with the WorktreeExists
condition carrying the conflicting directory (never BranchExists), and the
state is untouched — the directory check runs before the branch check and
before the base-branch check and the mutating call. -/
theorem c3_collision_precedence :
    ∀ (st : GitState) (repoPath branchName baseBranch worktreeDirectory : String),
      (checkWorktreeExists st.fs worktreeDirectory).«exists» = true →
      (checkBranchExists st repoPath branchName).«exists» = true →
      createWorktree st repoPath branchName baseBranch worktreeDirectory =
        (Except.error (AppError.worktreeExists worktreeDirectory), st) := by
  intro st repoPath branchName baseBranch worktreeDirectory h1 _h2
  simp [createWorktree, h1]

/-- C3 witness: a concrete state where both the directory `/w/r/feat` is
an existing worktree and the branch `feat` exists; creation fails with
WorktreeExists for the directory. -/
theorem c3_witness :
    createWorktree
        ⟨[("/repo", EntryKind.dir), ("/w/r/feat", EntryKind.dir),
          ("/w/r/feat/.git", EntryKind.file)],
         ["/repo"], [("/repo", "main"), ("/repo", "feat")], none⟩
        "/repo" "feat" "main" "/w/r/feat" =
      (Except.error (AppError.worktreeExists "/w/r/feat"),
       ⟨[("/repo", EntryKind.dir), ("/w/r/feat", EntryKind.dir),
         ("/w/r/feat/.git", EntryKind.file)],
        ["/repo"], [("/repo", "main"), ("/repo", "feat")], none⟩) :=
  c3_collision_precedence _ "/repo" "feat" "main" "/w/r/feat" (by decide) (by decide)

/-- C8: when the target directory is not a worktree and neither the new
branch nor the base branch exists, `createWorktree` fails with a
Validation condition whose message names the base branch, and the mutating
call is never issued: in the state it returns, the worktree directory
still does not exist and the branch still does not exist. -/
theorem c8_missing_base_branch_atomic :
    ∀ (st : GitState) (repoPath branchName baseBranch worktreeDirectory : String),
      (checkWorktreeExists st.fs worktreeDirectory).«exists» = false →
      (checkBranchExists st repoPath branchName).«exists» = false →
      (checkBranchExists st repoPath baseBranch).«exists» = false →
      (createWorktree st repoPath branchName baseBranch worktreeDirectory).1 =
          Except.error (AppError.validation ("Base branch does not exist: " ++ baseBranch)) ∧
      List.IsSuffix baseBranch.data ("Base branch does not exist: " ++ baseBranch).data ∧
      (createWorktree st repoPath branchName baseBranch worktreeDirectory).2 = st ∧
      (checkWorktreeExists
          (createWorktree st repoPath branchName baseBranch worktreeDirectory).2.fs
          worktreeDirectory).«exists» = false ∧
      (checkBranchExists
          (createWorktree st repoPath branchName baseBranch worktreeDirectory).2
          repoPath branchName).«exists» = false := by
  intro st repoPath branchName baseBranch worktreeDirectory h1 h2 h3
  have hcw : createWorktree st repoPath branchName baseBranch worktreeDirectory =
      (Except.error (AppError.validation ("Base branch does not exist: " ++ baseBranch)), st) := by
    simp [createWorktree, h1, h2, h3]
  refine ⟨by rw [hcw], ?_, by rw [hcw], by rw [hcw]; exact h1, by rw [hcw]; exact h2⟩
  rw [String.data_append]
  exact List.suffix_append _ _

/-- C8 witness: creating `feat` from the nonexistent base `nope` in a
fresh repository fails with the validation message naming `nope`, with no
worktree and no branch created. -/
theorem c8_witness :
    (createWorktree ⟨[("/repo", EntryKind.dir)], ["/repo"], [("/repo", "main")], none⟩
        "/repo" "feat" "nope" "/w/r/feat").1 =
        Except.error (AppError.validation ("Base branch does not exist: " ++ "nope")) ∧
    List.IsSuffix "nope".data ("Base branch does not exist: " ++ "nope").data ∧
    (createWorktree ⟨[("/repo", EntryKind.dir)], ["/repo"], [("/repo", "main")], none⟩
        "/repo" "feat" "nope" "/w/r/feat").2 =
        ⟨[("/repo", EntryKind.dir)], ["/repo"], [("/repo", "main")], none⟩ ∧
    (checkWorktreeExists
        (createWorktree ⟨[("/repo", EntryKind.dir)], ["/repo"], [("/repo", "main")], none⟩
          "/repo" "feat" "nope" "/w/r/feat").2.fs "/w/r/feat").«exists» = false ∧
    (checkBranchExists
        (createWorktree ⟨[("/repo", EntryKind.dir)], ["/repo"], [("/repo", "main")], none⟩
          "/repo" "feat" "nope" "/w/r/feat").2 "/repo" "feat").«exists» = false :=
  c8_missing_base_branch_atomic _ "/repo" "feat" "nope" "/w/r/feat"
    (by decide) (by decide) (by decide)

/-- C9: a well-formed open request naming a directory that exists on disk
but has no `.git` entry is answered with a 400 validation failure and the
terminal launch is never attempted. -/
theorem c9_open_requires_worktree :
    ∀ (st : GitState) (b : OpenBody) (data : OpenData),
      validateOpenRequest b = Except.ok data →
      existsPath st.fs data.directory = true →
      existsPath st.fs (data.directory ++ "/.git") = false →
      createWorktreeOpenHandler st b =
        ((400, { error := some "validation",
                 message := some "Directory is not a valid git worktree" }), false) := by
  intro st b data hv h1 h2
  have hw : (checkWorktreeExists st.fs data.directory).«exists» = false := by
    simp [checkWorktreeExists, h1, h2]
  simp [createWorktreeOpenHandler, hv, h1, hw, errorToResponse, AppError.message]

/-- C9 witness: opening the plain directory `/stuff` (present on disk,
no `.git` inside) is rejected with 400 validation and no launch. -/
theorem c9_witness :
    createWorktreeOpenHandler ⟨[("/stuff", EntryKind.dir)], [], [], none⟩
        ⟨some "/stuff", some "foo", some "I-1", some "b"⟩ =
      ((400, { error := some "validation",
               message := some "Directory is not a valid git worktree" }), false) :=
  c9_open_requires_worktree ⟨[("/stuff", EntryKind.dir)], [], [], none⟩
    ⟨some "/stuff", some "foo", some "I-1", some "b"⟩ ⟨"/stuff", "foo", "I-1", "b"⟩
    (by decide) (by decide) (by decide)

/-- C7: each failing create request is mapped exactly once to its status
and body: a Validation condition to 400 with error `validation`; a
worktree-path collision to 409 with error `exists`, the conflicting
directory and a message; a branch collision to 409 with error
`branch_exists` and a message; a failing `git worktree add` to 500 with
error `git_error` and a message; and any other exception to 500 with
error `internal` and a fixed generic message independent of the
exception's own text. -/
theorem c7_create_error_mapping :
    ∀ (st : GitState) (b : CreateBody) (data : CreateData) (D stderrText errMsg : String),
      D = buildWorktreePath data.worktreeRoot data.repoPath data.branchName →
      ((∀ m, validateCreateRequest b = Except.error (AppError.validation m) →
        createWorktreeCreateHandler st b =
          ((400, { error := some "validation", message := some m }), st)) ∧
      (validateCreateRequest b = Except.ok data →
        validateRepoPath st data.repoPath = Except.ok () →
        (checkWorktreeExists st.fs D).«exists» = true →
        createWorktreeCreateHandler st b =
          ((409, { error := some "exists", directory := some D,
                   message := some ("Worktree already exists at " ++ D) }), st)) ∧
      (validateCreateRequest b = Except.ok data →
        validateRepoPath st data.repoPath = Except.ok () →
        (checkWorktreeExists st.fs D).«exists» = false →
        (checkBranchExists st data.repoPath data.branchName).«exists» = true →
        createWorktreeCreateHandler st b =
          ((409, { error := some "branch_exists",
                   message := some ("Branch " ++ data.branchName ++ " already exists") }), st)) ∧
      (validateCreateRequest b = Except.ok data →
        validateRepoPath st data.repoPath = Except.ok () →
        (checkWorktreeExists st.fs D).«exists» = false →
        (checkBranchExists st data.repoPath data.branchName).«exists» = false →
        (checkBranchExists st data.repoPath data.baseBranch).«exists» = true →
        st.addFailure = some stderrText →
        createWorktreeCreateHandler st b =
          ((500, { error := some "git_error",
                   message := some (worktreeAddFailMessage data.branchName D data.baseBranch) }),
           st)) ∧
      (validateCreateRequest b = Except.ok data →
        validateRepoPath st data.repoPath = Except.ok () →
        (checkWorktreeExists st.fs D).«exists» = false →
        (checkBranchExists st data.repoPath data.branchName).«exists» = false →
        (checkBranchExists st data.repoPath data.baseBranch).«exists» = true →
        st.addFailure = none →
        executeTerminalCommand data.terminalCommand ⟨D, data.issueId, data.branchName⟩ =
            Except.error errMsg →
        createWorktreeCreateHandler st b =
          ((500, { error := some "internal", message := some "An unexpected error occurred" }),
           applyWorktreeAdd st data.repoPath data.branchName D))) := by
  intro st b data D stderrText errMsg hD
  subst hD
  refine ⟨?_, ?_, ?_, ?_, ?_⟩
  · intro m hv
    simp [createWorktreeCreateHandler, hv, errorToResponse, AppError.message]
  · intro hv hr h1
    simp [createWorktreeCreateHandler, hv, hr, createWorktree, h1,
      errorToResponse, AppError.message]
  · intro hv hr h1 h2
    simp [createWorktreeCreateHandler, hv, hr, createWorktree, h1, h2,
      errorToResponse, AppError.message]
  · intro hv hr h1 h2 h3 hf
    simp [createWorktreeCreateHandler, hv, hr, createWorktree, h1, h2, h3, hf,
      errorToResponse, AppError.message]
  · intro hv hr h1 h2 h3 hf he
    simp [createWorktreeCreateHandler, hv, hr, createWorktree, h1, h2, h3, hf, he,
      errorToResponse, AppError.message]

/-- C7 witness: with both the worktree directory `/w/repo/feat` present as
a worktree and the branch `feat` present, the create handler answers 409
with error `exists` and the conflicting directory. -/
theorem c7_witness :
    createWorktreeCreateHandler
        ⟨[("/repo", EntryKind.dir), ("/w/repo/feat", EntryKind.dir),
          ("/w/repo/feat/.git", EntryKind.file)],
         ["/repo"], [("/repo", "main"), ("/repo", "feat")], none⟩
        ⟨some "I-1", some "/repo", some "feat", some "main", some "/w", some "foo"⟩ =
      ((409, { error := some "exists", directory := some "/w/repo/feat",
               message := some ("Worktree already exists at " ++ "/w/repo/feat") }),
       ⟨[("/repo", EntryKind.dir), ("/w/repo/feat", EntryKind.dir),
         ("/w/repo/feat/.git", EntryKind.file)],
        ["/repo"], [("/repo", "main"), ("/repo", "feat")], none⟩) :=
  ((c7_create_error_mapping _ _ ⟨"I-1", "/repo", "feat", "main", "/w", "foo"⟩
    "/w/repo/feat" "" "" (by decide)).2.1) (by decide) (by decide) (by decide)

/-- Rebuilding a string from its characters is the identity. -/
lemma stringMk_data (s : String) : String.mk s.data = s := rfl

/-- A list is a `isPrefixOf`-prefix of itself followed by anything. -/
lemma isPrefixOf_self_append (p s : List Char) : List.isPrefixOf p (p ++ s) = true := by
  induction p with
  | nil => simp [List.isPrefixOf]
  | cons c p ih => simp [List.isPrefixOf, ih]

/-- The `worktree ` marker never matches a `HEAD ` line. -/
lemma wt_not_head (s : List Char) :
    List.isPrefixOf "worktree ".data ("HEAD ".data ++ s) = false := rfl

/-- The `worktree ` marker never matches a `branch ` line. -/
lemma wt_not_branch (s : List Char) :
    List.isPrefixOf "worktree ".data ("branch refs/heads/".data ++ s) = false := rfl

/-- The `HEAD ` marker never matches a `branch ` line. -/
lemma head_not_branch (s : List Char) :
    List.isPrefixOf "HEAD ".data ("branch refs/heads/".data ++ s) = false := rfl

/-- Slicing 9 characters off a `worktree ` line leaves the path. -/
lemma drop9_wt (s : List Char) : List.drop 9 ("worktree ".data ++ s) = s := rfl

/-- Slicing 5 characters off a `HEAD ` line leaves the head id. -/
lemma drop5_head (s : List Char) : List.drop 5 ("HEAD ".data ++ s) = s := rfl

/-- Slicing 7 characters off a fully-qualified `branch ` line leaves the
qualified ref. -/
lemma drop7_branch (s : List Char) :
    List.drop 7 ("branch refs/heads/".data ++ s) = "refs/heads/".data ++ s := rfl

/-- Replacing the first `refs/heads/` occurrence in a string that starts
with it strips exactly that prefix. -/
lemma stripRefsHeads (s : List Char) :
    replaceFirst ('r' :: 'e' :: 'f' :: 's' :: '/' :: 'h' :: 'e' :: 'a' :: 'd' :: 's' :: '/' :: [])
      []
      ('r' :: 'e' :: 'f' :: 's' :: '/' :: 'h' :: 'e' :: 'a' :: 'd' :: 's' :: '/' :: s) = s := by
  rw [replaceFirst, if_neg (by decide), replaceFirstGo]
  rw [if_pos (by simp [List.isPrefixOf])]
  rfl

/-- Consuming the lines of one porcelain record starting from an empty
draft leaves the loop with that record's fields as the current draft and
pushes nothing. -/
lemma parseWorktreeGo_record (r : PorcelainRecord) (rest : List (List Char))
    (acc : List WorktreeInfo) :
    parseWorktreeGo (recordLines r ++ rest) {} acc =
      parseWorktreeGo rest (toWorktreeInfo r) acc := by
  cases hh : r.headId with
  | none =>
    cases hb : r.branchName with
    | none =>
      simp [recordLines, optLine, parseWorktreeGo, pathTruthy, toWorktreeInfo, hh, hb,
        isPrefixOf_self_append, drop9_wt, stringMk_data]
    | some bn =>
      simp [recordLines, optLine, parseWorktreeGo, pathTruthy, toWorktreeInfo, hh, hb,
        isPrefixOf_self_append, wt_not_branch, head_not_branch, drop9_wt, drop7_branch,
        stripRefsHeads, stringMk_data]
  | some hd =>
    cases hb : r.branchName with
    | none =>
      simp [recordLines, optLine, parseWorktreeGo, pathTruthy, toWorktreeInfo, hh, hb,
        isPrefixOf_self_append, wt_not_head, drop9_wt, drop5_head, stringMk_data]
    | some bn =>
      simp [recordLines, optLine, parseWorktreeGo, pathTruthy, toWorktreeInfo, hh, hb,
        isPrefixOf_self_append, wt_not_head, wt_not_branch, head_not_branch,
        drop9_wt, drop5_head, drop7_branch, stripRefsHeads, stringMk_data]

/-- A well-formed record has a nonempty path, so its draft is truthy. -/
lemma pathTruthy_of_wf (r : PorcelainRecord) (hr : wfRecord r = true) :
    pathTruthy (toWorktreeInfo r) = true := by
  have h1 : r.path ≠ "" := by
    simp [wfRecord, noNl] at hr
    tauto
  simp [pathTruthy, toWorktreeInfo, h1]

/-- Folding the lines of a whole well-formed porcelain listing appends one
parsed record per input record, in order. -/
lemma parseWorktreeGo_porcelain :
    ∀ (rs : List PorcelainRecord), (∀ r ∈ rs, wfRecord r = true) →
      ∀ acc, parseWorktreeGo (porcelainLines rs) {} acc = acc ++ rs.map toWorktreeInfo := by
  intro rs
  induction rs with
  | nil => intro _ acc; simp [porcelainLines, parseWorktreeGo, pathTruthy]
  | cons r rs ih =>
    intro h acc
    have hr : wfRecord r = true := h r (List.mem_cons_self _ _)
    have hpath := pathTruthy_of_wf r hr
    cases rs with
    | nil =>
      show parseWorktreeGo (recordLines r) {} acc = acc ++ [toWorktreeInfo r]
      rw [← List.append_nil (recordLines r), parseWorktreeGo_record]
      simp [parseWorktreeGo, hpath]
    | cons r2 rs2 =>
      have hrest : ∀ x ∈ r2 :: rs2, wfRecord x = true :=
        fun x hx => h x (List.mem_cons_of_mem _ hx)
      show parseWorktreeGo (recordLines r ++ [[]] ++ porcelainLines (r2 :: rs2)) {} acc = _
      rw [List.append_assoc, parseWorktreeGo_record]
      rw [show ([[]] ++ porcelainLines (r2 :: rs2) : List (List Char)) =
        [] :: porcelainLines (r2 :: rs2) from rfl]
      rw [parseWorktreeGo, if_neg (by decide), if_neg (by decide), if_neg (by decide),
        if_pos rfl, if_pos hpath]
      rw [ih hrest (acc ++ [toWorktreeInfo r])]
      simp

/-- A newline-free character list splits into the single line it is. -/
lemma splitNl_no_nl (l : List Char) (h : '\n' ∉ l) : splitNl l = [l] := by
  induction l with
  | nil => rfl
  | cons c rest ih =>
    have hc : ¬ c = '\n' := fun e => h (e ▸ List.mem_cons_self c rest)
    have hrest : '\n' ∉ rest := fun hx => h (List.mem_cons_of_mem _ hx)
    simp [splitNl, hc, ih hrest]

/-- Splitting after a newline-free first line peels that line off. -/
lemma splitNl_append_nl (l rest : List Char) (h : '\n' ∉ l) :
    splitNl (l ++ '\n' :: rest) = l :: splitNl rest := by
  induction l with
  | nil => simp [splitNl]
  | cons c l2 ih =>
    have hc : ¬ c = '\n' := fun e => h (e ▸ List.mem_cons_self c l2)
    have hl2 : '\n' ∉ l2 := fun hx => h (List.mem_cons_of_mem _ hx)
    simp [splitNl, hc, ih hl2]

/-- Splitting on newlines is a left inverse of joining newline-free
lines. -/
lemma splitNl_joinNl (lines : List (List Char)) (h : ∀ l ∈ lines, '\n' ∉ l)
    (hne : lines ≠ []) : splitNl (joinNl lines) = lines := by
  induction lines with
  | nil => exact absurd rfl hne
  | cons l ls ih =>
    cases ls with
    | nil => simpa [joinNl] using splitNl_no_nl l (h l (List.mem_cons_self _ _))
    | cons l2 ls2 =>
      rw [show joinNl (l :: l2 :: ls2) = l ++ '\n' :: joinNl (l2 :: ls2) from rfl]
      rw [splitNl_append_nl _ _ (h l (List.mem_cons_self _ _))]
      rw [ih (fun x hx => h x (List.mem_cons_of_mem _ hx)) (by simp)]

/-- No line of a well-formed record contains a newline. -/
lemma recordLines_no_nl (r : PorcelainRecord) (hr : wfRecord r = true) :
    ∀ l ∈ recordLines r, '\n' ∉ l := by
  cases hh : r.headId with
  | none =>
    cases hb : r.branchName with
    | none =>
      intro l hl
      simp [wfRecord, noNl, hh, hb] at hr
      simp [recordLines, optLine, hh, hb] at hl
      subst hl
      intro hmem
      simp at hmem
      exact hr.2 '\n' hmem rfl
    | some bn =>
      intro l hl
      simp [wfRecord, noNl, hh, hb] at hr
      simp [recordLines, optLine, hh, hb] at hl
      rcases hl with hl | hl <;> subst hl <;> intro hmem <;> simp at hmem
      · exact hr.1.2 '\n' hmem rfl
      · exact hr.2 '\n' hmem rfl
  | some hd =>
    cases hb : r.branchName with
    | none =>
      intro l hl
      simp [wfRecord, noNl, hh, hb] at hr
      simp [recordLines, optLine, hh, hb] at hl
      rcases hl with hl | hl <;> subst hl <;> intro hmem <;> simp at hmem
      · exact hr.1.2 '\n' hmem rfl
      · exact hr.2 '\n' hmem rfl
    | some bn =>
      intro l hl
      simp [wfRecord, noNl, hh, hb] at hr
      simp [recordLines, optLine, hh, hb] at hl
      rcases hl with hl | hl | hl <;> subst hl <;> intro hmem <;> simp at hmem
      · exact hr.1.1.2 '\n' hmem rfl
      · exact hr.1.2 '\n' hmem rfl
      · exact hr.2 '\n' hmem rfl

/-- No line of a well-formed porcelain listing contains a newline. -/
lemma porcelainLines_no_nl :
    ∀ (rs : List PorcelainRecord), (∀ r ∈ rs, wfRecord r = true) →
      ∀ l ∈ porcelainLines rs, '\n' ∉ l := by
  intro rs
  induction rs with
  | nil => intro _ l hl; simp [porcelainLines] at hl
  | cons r rs ih =>
    intro h l hl
    have hr : wfRecord r = true := h r (List.mem_cons_self _ _)
    cases rs with
    | nil => exact recordLines_no_nl r hr l hl
    | cons r2 rs2 =>
      have hrest : ∀ x ∈ r2 :: rs2, wfRecord x = true :=
        fun x hx => h x (List.mem_cons_of_mem _ hx)
      have hl2 : l ∈ recordLines r ∨ l = [] ∨ l ∈ porcelainLines (r2 :: rs2) := by
        simpa [porcelainLines, List.append_assoc] using hl
      rcases hl2 with h1 | rfl | h1
      · exact recordLines_no_nl r hr l h1
      · simp
      · exact ih hrest l h1

/-- One porcelain record contributes exactly one `worktree ` line. -/
lemma countWorktreeLines_record (r : PorcelainRecord) :
    countWorktreeLines (recordLines r) = 1 := by
  cases hh : r.headId <;> cases hb : r.branchName <;>
    simp [countWorktreeLines, recordLines, optLine, hh, hb, List.countP_cons,
      isPrefixOf_self_append, wt_not_head, wt_not_branch]

/-- A porcelain listing has exactly one `worktree ` line per record. -/
lemma countWorktreeLines_porcelain :
    ∀ (rs : List PorcelainRecord),
      countWorktreeLines (porcelainLines rs) = rs.length := by
  intro rs
  induction rs with
  | nil => rfl
  | cons r rs ih =>
    cases rs with
    | nil => simpa using countWorktreeLines_record r
    | cons r2 rs2 =>
      have h1 := countWorktreeLines_record r
      show countWorktreeLines (recordLines r ++ [[]] ++ porcelainLines (r2 :: rs2)) = _
      simp only [countWorktreeLines, List.countP_append] at *
      simp only [ih, h1]
      simp [List.countP_cons, List.isPrefixOf]
      omega

/-- C6: `parseWorktreeListOutput` maps every well-formed porcelain
listing (records separated by blank lines, trailing record without a
final separator) to exactly one record per `worktree ` line, in order,
with the path from the `worktree ` line, the head id from the `HEAD `
line, the branch from the `branch ` line with the `refs/heads/` prefix
stripped, and the record count equal to the number of `worktree ` lines
in the input. -/
theorem c6_worktree_list_round_trip :
    ∀ (rs : List PorcelainRecord), (∀ r ∈ rs, wfRecord r = true) →
      parseWorktreeListOutput (porcelainOutput rs) = rs.map toWorktreeInfo ∧
      (parseWorktreeListOutput (porcelainOutput rs)).length =
        countWorktreeLines (splitNl (porcelainOutput rs).data) := by
  intro rs h
  cases rs with
  | nil => exact ⟨by decide, by decide⟩
  | cons r rs2 =>
    have hne : porcelainLines (r :: rs2) ≠ [] := by
      cases rs2 <;> simp [porcelainLines, recordLines]
    have hsplit : splitNl (porcelainOutput (r :: rs2)).data = porcelainLines (r :: rs2) :=
      splitNl_joinNl _ (porcelainLines_no_nl _ h) hne
    have hparse : parseWorktreeListOutput (porcelainOutput (r :: rs2)) =
        (r :: rs2).map toWorktreeInfo := by
      rw [parseWorktreeListOutput, hsplit]
      simpa using parseWorktreeGo_porcelain _ h []
    refine ⟨hparse, ?_⟩
    rw [hparse, hsplit, countWorktreeLines_porcelain]
    simp

/-- C6 witness: a two-record listing (first record with head and branch,
second with only a path) parses to the two expected records. -/
theorem c6_witness :
    parseWorktreeListOutput
        (porcelainOutput [⟨"/a", some "abc123", some "main"⟩, ⟨"/b", none, none⟩]) =
      [⟨some "/a", some "abc123", some "main"⟩, ⟨some "/b", none, none⟩] ∧
    (parseWorktreeListOutput
        (porcelainOutput [⟨"/a", some "abc123", some "main"⟩, ⟨"/b", none, none⟩])).length =
      countWorktreeLines (splitNl
        (porcelainOutput [⟨"/a", some "abc123", some "main"⟩, ⟨"/b", none, none⟩]).data) :=
  c6_worktree_list_round_trip
    [⟨"/a", some "abc123", some "main"⟩, ⟨"/b", none, none⟩] (by decide)
